import Mathlib

/-!
Verification of the comment-anchored text patcher in `src/UI.py`
(`EnergyPlusAutomationUI`): `_get_active_fields`, `execute_modification`
and `_save_with_text_replacement`, together with the byte-level encoding
behaviour of the read/write step.

Strings are modelled as `List Char` (Python `str` restricted to the
ASCII-oriented operations the source uses); documents are lists of lines,
each line carrying its original terminator, exactly as produced by
Python `readlines()`.
-/

/-- ASCII whitespace set of Python `str.strip()` / regex `\s`
(space, tab, newline, carriage return, vertical tab, form feed). -/
def pyIsSpace (c : Char) : Bool :=
  c == ' ' || c == '\t' || c == '\n' || c == '\r' || c == Char.ofNat 11 || c == Char.ofNat 12

/-- Python `s.strip()`: remove whitespace from both ends. -/
def pyStrip (s : List Char) : List Char :=
  ((s.dropWhile pyIsSpace).reverse.dropWhile pyIsSpace).reverse

/-- Python `s.rstrip('\r\n')`. -/
def rstripRN (s : List Char) : List Char :=
  (s.reverse.dropWhile (fun c => c == '\r' || c == '\n')).reverse

/-- Python `s.upper()` (ASCII). -/
def pyUpper (s : List Char) : List Char := s.map Char.toUpper

/-- Python `s.lower()` (ASCII). -/
def pyLower (s : List Char) : List Char := s.map Char.toLower

/-- Python `s.replace(c, "")` for a one-character needle. -/
def removeChar (c : Char) (s : List Char) : List Char := s.filter (fun x => x != c)

/-- Python `c in s` for a single character. -/
def hasChar (s : List Char) (c : Char) : Bool := s.any (fun x => x == c)

/-- Whether `pre` is an initial segment of `s` (Python `s.startswith(pre)`). -/
def leadsWith : List Char → List Char → Bool
  | [], _ => true
  | _ :: _, [] => false
  | a :: as, b :: bs => a == b && leadsWith as bs

/-- Python `needle in s` (substring containment). -/
def pyContainsSub (needle : List Char) : List Char → Bool
  | [] => leadsWith needle []
  | c :: rest => leadsWith needle (c :: rest) || pyContainsSub needle rest

/-- Python `s.split(sep)` for a one-character separator: keeps empty pieces,
always returns at least one piece. -/
def pySplitC (sep : Char) : List Char → List (List Char)
  | [] => [[]]
  | c :: rest =>
    if c == sep then [] :: pySplitC sep rest
    else
      match pySplitC sep rest with
      | [] => [[c]]
      | p :: ps => (c :: p) :: ps

/-- Python `s.split(sep, 1)` when the separator occurs: `some (before, after)`
iff `sep` occurs in `s` (i.e. `len(s.split(sep, 1)) == 2`). -/
def breakAtChar (sep : Char) : List Char → Option (List Char × List Char)
  | [] => none
  | c :: rest =>
    if c == sep then some ([], rest)
    else (breakAtChar sep rest).map (fun p => (c :: p.1, p.2))

/-- First position split at a character satisfying `p`. -/
def breakAtPred (p : Char → Bool) : List Char → Option (List Char × List Char)
  | [] => none
  | c :: rest =>
    if p c then some ([], rest)
    else (breakAtPred p rest).map (fun q => (c :: q.1, q.2))

/-- Nonempty all-digit token (regex `\d+`, ASCII digits). -/
def allDigits1 (s : List Char) : Bool := !s.isEmpty && s.all Char.isDigit

/-- Full match of the mantissa pattern `\d*\.?\d+` of the substitution regex
in `_save_with_text_replacement`: either a nonempty digit run, or digits
(possibly none), a dot, then a nonempty digit run. -/
def mantissaRe (s : List Char) : Bool :=
  allDigits1 s ||
    (match breakAtChar '.' s with
     | some p => p.1.all Char.isDigit && allDigits1 p.2
     | none => false)

/-- Full match of the numeric-token pattern
`[-+]?\d*\.?\d+(?:[Ee][-+]?\d+)?` of the substitution regex. -/
def numTokenRe (s : List Char) : Bool :=
  let s1 := match s with
    | c :: rest => if c == '-' || c == '+' then rest else s
    | [] => s
  match breakAtPred (fun c => c == 'e' || c == 'E') s1 with
  | none => mantissaRe s1
  | some p =>
    let r := match p.2 with
      | c :: rr => if c == '-' || c == '+' then rr else p.2
      | [] => p.2
    mantissaRe p.1 && allDigits1 r

/-- Model of `re.match(r"^(\s*)([-+]?\d*\.?\d+(?:[Ee][-+]?\d+)?)(\s*)([,;].*)$", s)`.
Because the character classes of the four groups are pairwise disjoint at
their boundaries, the backtracking match is forced: group 1 is the maximal
leading whitespace run, group 2 the following maximal run of
non-whitespace/non-delimiter characters (which must fully match the numeric
token pattern), group 3 the next whitespace run, group 4 the delimiter and
the remainder.  Returns `(group1, group2, group3, group4)`. -/
def matchNumLine (s : List Char) : Option (List Char × List Char × List Char × List Char) :=
  let ws1 := s.takeWhile pyIsSpace
  let s1 := s.dropWhile pyIsSpace
  let num := s1.takeWhile (fun c => !pyIsSpace c && c != ',' && c != ';')
  let s2 := s1.dropWhile (fun c => !pyIsSpace c && c != ',' && c != ';')
  let ws2 := s2.takeWhile pyIsSpace
  match s2.dropWhile pyIsSpace with
  | c :: rest =>
    if (c == ',' || c == ';') && numTokenRe num then some (ws1, num, ws2, c :: rest)
    else none
  | [] => none

/-- An update request as assembled by `execute_modification`:
`{"type": ..., "name": ..., "field": ..., "value": ...}`.  The numeric value
is carried as the decimal text that Python's f-string interpolation writes
into the line. -/
structure Update where
  type : List Char
  name : List Char
  field : List Char
  value : List Char

/-- Lookup in an insertion-ordered association list (Python `dict` access). -/
def alistGet {V : Type} : List (List Char × V) → List Char → Option V
  | [], _ => none
  | (k2, v) :: rest, k => if k2 = k then some v else alistGet rest k

/-- Python `d[k] = v`: replace in place if the key exists, else append. -/
def alistSet {V : Type} : List (List Char × V) → List Char → V → List (List Char × V)
  | [], k, v => [(k, v)]
  | (k2, v2) :: rest, k, v =>
    if k2 = k then (k2, v) :: rest else (k2, v2) :: alistSet rest k v

/-- The three-level lookup table `updates_map`:
object type (upper) → instance name (upper) → field label (upper) → value. -/
def UMap : Type := List (List Char × List (List Char × List (List Char × List Char)))

/-- Python `key in updates_map`. -/
def umapHasKey (m : UMap) (k : List Char) : Bool := (alistGet m k).isSome

/-- Build `updates_map` from `target_updates` exactly as the loop at the top
of `_save_with_text_replacement` does (nested dicts keyed by upper-cased
type / name / field, last write wins, insertion order kept). -/
def buildUpdatesMap (target_updates : List Update) : UMap :=
  target_updates.foldl
    (fun m u =>
      let t := pyUpper u.type
      let n := pyUpper u.name
      let f := pyUpper u.field
      let inner1 := (alistGet m t).getD []
      let inner2 := (alistGet inner1 n).getD []
      alistSet m t (alistSet inner1 n (alistSet inner2 f u.value)))
    []

/-- Line-walk state of `_save_with_text_replacement`:
`current_type` / `current_name` (both `None` initially) and `in_obj`. -/
structure PatchState where
  currentType : Option (List Char)
  currentName : Option (List Char)
  inObj : Bool
deriving DecidableEq

/-- The initial state (`current_type = None`, `current_name = None`,
`in_obj = False`). -/
def initState : PatchState := ⟨none, none, false⟩

/-- Block-boundary detection: the first `if not in_obj and stripped and not
stripped.startswith('!')` branch of the line loop. -/
def openState (m : UMap) (st : PatchState) (line : List Char) : PatchState :=
  let stripped := pyStrip line
  if !st.inObj && !stripped.isEmpty && !leadsWith ['!'] stripped then
    -- parts = stripped.split('!')[0].split(','); parts[0]
    let part0 := (stripped.takeWhile (fun c => c != '!')).takeWhile (fun c => c != ',')
    let possibleType := pyUpper (pyStrip (removeChar ';' part0))
    if umapHasKey m possibleType then
      { currentType := some possibleType, currentName := some "N/A".data, inObj := true }
    else if hasChar stripped ',' || hasChar stripped ';' then
      { st with currentType := some "UNKNOWN".data, inObj := true }
    else st
  else st

/-- Captured name value: `line.split('!')[0].replace(',','').replace(';','').strip().upper()`. -/
def nameValue (line : List Char) : List Char :=
  pyUpper (pyStrip (removeChar ';' (removeChar ',' (line.takeWhile (fun c => c != '!')))))

/-- The literal marker `"!- Name"` whose presence anywhere in the line
triggers name capture. -/
def nameMark : List Char := "!- Name".data

/-- Block closing (`';' in line.split('!')[0]`) and name capture
(`"!- Name" in line`), performed inside the `if in_obj:` branch. -/
def closeNameState (st : PatchState) (line : List Char) : PatchState :=
  let st1 := if hasChar (line.takeWhile (fun c => c != '!')) ';' then { st with inObj := false } else st
  if pyContainsSub nameMark line then { st1 with currentName := some (nameValue line) } else st1

/-- Python `current_type in updates_map` (`current_type` may still be `None`). -/
def typeInMap (m : UMap) (st : PatchState) : Bool :=
  match st.currentType with
  | some t => umapHasKey m t
  | none => false

/-- The comment-derived field key: `comment = line.split('!')[1].strip()`,
then `comment[2:].strip().upper()` if it starts with `"- "`, else
`comment.upper()`. -/
def commentFieldKey (line : List Char) : List Char :=
  let comment := pyStrip ((pySplitC '!' line).getD 1 [])
  if leadsWith "- ".data comment then pyUpper (pyStrip (comment.drop 2))
  else pyUpper comment

/-- Pending fields for the current instance:
`updates_map[current_type].get(current_name, {})`. -/
def targetFieldsOf (m : UMap) (st : PatchState) : List (List Char × List Char) :=
  match st.currentType with
  | some t =>
    match alistGet m t with
    | some inner =>
      match st.currentName with
      | some n => (alistGet inner n).getD []
      | none => []
    | none => []
  | none => []

/-- The per-candidate matching test: normalized-substring containment
`tk.replace(" ","").replace("_","") in field_key.replace(" ","").replace("_","")`. -/
def labelMatchTest (tk fieldKey : List Char) : Bool :=
  pyContainsSub (removeChar '_' (removeChar ' ' tk)) (removeChar '_' (removeChar ' ' fieldKey))

/-- Normalization of a field label as the matching test effectively applies
it to a pending label: upper-case, then remove spaces, then underscores. -/
def normLabel (s : List Char) : List Char := removeChar '_' (removeChar ' ' (pyUpper s))

/-- First-match scan over the pending fields (`for tk, tv in target_fields.items()`). -/
def findMatch (fieldKey : List Char) : List (List Char × List Char) → Option (List Char)
  | [] => none
  | (tk, tv) :: rest =>
    if labelMatchTest tk fieldKey then some tv else findMatch fieldKey rest

/-- The four spaces the naive comma fallback writes before the new value. -/
def fourSpaces : List Char := "    ".data

/-- Rewrite a line with the matched value: regex replacement preserving
groups 1, 3 and 4, else the split-on-first-comma fallback, else unchanged. -/
def rewriteWith (v : List Char) (line : List Char) : List Char :=
  let content := line.takeWhile (fun c => c != '!')
  let commentPart := line.dropWhile (fun c => c != '!')
  match matchNumLine (rstripRN content) with
  | some r => r.1 ++ v ++ r.2.2.1 ++ r.2.2.2 ++ commentPart
  | none =>
    match breakAtChar ',' content with
    | some p => fourSpaces ++ v ++ [','] ++ p.2 ++ commentPart
    | none => line

/-- The substitution attempt on one line (the
`if current_type in updates_map and '!' in line:` block). -/
def substLine (m : UMap) (st : PatchState) (line : List Char) : List Char :=
  if typeInMap m st && hasChar line '!' then
    match findMatch (commentFieldKey line) (targetFieldsOf m st) with
    | some v => rewriteWith v line
    | none => line
  else line

/-- Whether the substitution machinery actually rewrites this line in this
state: guard conditions hold, some pending field matches, and one of the
two rewrite patterns applies. -/
def substFires (m : UMap) (st : PatchState) (line : List Char) : Bool :=
  typeInMap m st && hasChar line '!' &&
    (findMatch (commentFieldKey line) (targetFieldsOf m st)).isSome &&
    ((matchNumLine (rstripRN (line.takeWhile (fun c => c != '!')))).isSome ||
      (breakAtChar ',' (line.takeWhile (fun c => c != '!'))).isSome)

/-- One iteration of the `for line in lines:` loop: update the state, then
(while inside a block) close/capture and attempt the substitution. -/
def stepLine (m : UMap) (st : PatchState) (line : List Char) : PatchState × List Char :=
  let st1 := openState m st line
  if st1.inObj then
    let st2 := closeNameState st1 line
    (st2, substLine m st2 line)
  else (st1, line)

/-- A line is the target of a performed substitution (relative to the state
in which the loop reaches it). -/
def lineSubstituted (m : UMap) (st : PatchState) (line : List Char) : Bool :=
  (openState m st line).inObj && substFires m (closeNameState (openState m st line) line) line

/-- The full line walk producing `new_lines`. -/
def patchLines (m : UMap) (st : PatchState) : List (List Char) → List (List Char)
  | [] => []
  | l :: ls =>
    let r := stepLine m st l
    r.2 :: patchLines m r.1 ls

/-- Model of `_save_with_text_replacement(target_updates, output_path)`:
the rewritten line sequence (file I/O is modelled by returning the lines
that are written). -/
def save_with_text_replacement (target_updates : List Update) (lines : List (List Char)) :
    List (List Char) :=
  patchLines (buildUpdatesMap target_updates) initState lines

/-- The state in which the loop reaches line `i` (state after processing
the first `i` lines). -/
def stateBefore (m : UMap) (st : PatchState) : List (List Char) → Nat → PatchState
  | _, 0 => st
  | [], _ + 1 => st
  | l :: ls, i + 1 => stateBefore m (stepLine m st l).1 ls i

/-- Line `i` of the document is the target of a performed substitution in
the run of `_save_with_text_replacement` on `lines`. -/
def substitutedAt (target_updates : List Update) (lines : List (List Char)) (i : Nat) : Bool :=
  let m := buildUpdatesMap target_updates
  lineSubstituted m (stateBefore m initState lines i) (lines.getD i [])

/-- Digit-run tail allowing single underscores strictly between digits
(Python numeric literal syntax accepted by `float`). -/
def digitsTailU : List Char → Bool
  | [] => true
  | '_' :: c :: rest => c.isDigit && digitsTailU rest
  | c :: rest => c.isDigit && digitsTailU rest

/-- Nonempty digit run, underscores allowed between digits. -/
def digitsOkU : List Char → Bool
  | [] => false
  | c :: rest => c.isDigit && digitsTailU rest

/-- Mantissa of a Python `float()` literal: `D`, `D.`, `.D` or `D.D`
with `D` a (possibly underscore-separated) digit run. -/
def floatBody (s : List Char) : Bool :=
  match breakAtChar '.' s with
  | none => digitsOkU s
  | some p =>
    if p.1.isEmpty then digitsOkU p.2
    else if p.2.isEmpty then digitsOkU p.1
    else digitsOkU p.1 && digitsOkU p.2

/-- Strip one optional leading sign. -/
def dropSign (s : List Char) : List Char :=
  match s with
  | c :: rest => if c == '-' || c == '+' then rest else s
  | [] => s

/-- Whether Python `float(s)` succeeds on the string `s` (ASCII model):
optional surrounding whitespace, optional sign, then `inf`, `infinity`,
`nan` (case-insensitive) or a decimal literal with optional exponent. -/
def pyFloatParses (s : List Char) : Bool :=
  let t := dropSign (pyStrip s)
  let tl := pyLower t
  tl = "inf".data || tl = "infinity".data || tl = "nan".data ||
    (match breakAtPred (fun c => c == 'e' || c == 'E') t with
     | none => floatBody t
     | some p => floatBody p.1 && digitsOkU (dropSign p.2))

/-- A parsed-model object as `execute_modification` consumes it (an `eppy`
IDF object): the declared field-name ordering and the current field values.
Values are carried as the strings `float()` is applied to; `eppy` fields
that hold numbers behave as their decimal text here. -/
structure IdfObject where
  fieldnames : List (List Char)
  values : List (List Char × List Char)

/-- Python `getattr(obj, attr, default)` on field values. -/
def pyGetattr (obj : IdfObject) (attr : List Char) (dflt : List Char) : List Char :=
  (alistGet obj.values attr).getD dflt

/-- One entry of the `modifications` list passed by the UI:
`{'object_type': ..., 'fields': [...], 'coef': ...}`.  The IEEE-754
computation `round(float(old_val) * coef, 6)` and its f-string rendering
are outside the embedding (floating point); the coefficient is therefore
carried as the function `coef` mapping the old value text to the rendered
new value text (the empty string stands for the `old_val == ''` branch,
whose numeric value is `0.0`). -/
structure Modification where
  object_type : List Char
  fields : List (List Char)
  coef : List Char → List Char

/-- Field-name normalization used to resolve a requested field against
`obj.fieldnames`: `lower().replace("_", "").replace(" ", "")`. -/
def normAttr (s : List Char) : List Char :=
  removeChar ' ' (removeChar '_' (pyLower s))

/-- First declared attribute whose normalized name equals the normalized
requested field (the inner `for attr in valid_attrs:` loop). -/
def findTargetAttr (fieldnames : List (List Char)) (normField : List Char) :
    Option (List Char) :=
  match fieldnames with
  | [] => none
  | attr :: rest =>
    if normAttr attr = normField then some attr else findTargetAttr rest normField

/-- Update requests contributed by one requested field of one object:
resolve the attribute, read the value, convert (with the `''` → `0.0`
special case), emit one request, or none on `ValueError`. -/
def updatesForField (objType : List Char) (objName : List Char) (obj : IdfObject)
    (coef : List Char → List Char) (field : List Char) : List Update :=
  let cleanField := pyStrip field
  match findTargetAttr obj.fieldnames (normAttr cleanField) with
  | none => []
  | some attr =>
    let oldVal := pyGetattr obj attr "0".data
    if oldVal.isEmpty then [⟨objType, objName, attr, coef []⟩]
    else if pyFloatParses oldVal then [⟨objType, objName, attr, coef oldVal⟩]
    else []

/-- Update requests contributed by one object (`for field in fields:`). -/
def updatesForObj (mod : Modification) (obj : IdfObject) : List Update :=
  let objName := pyGetattr obj "Name".data "N/A".data
  mod.fields.foldl (fun acc field =>
    acc ++ updatesForField mod.object_type objName obj mod.coef field) []

/-- The `target_updates` list built by the nested loops of
`execute_modification` over `modifications`, the objects of each requested
type, and the requested fields. -/
def buildTargetUpdates (idfObjects : List (List Char × List IdfObject))
    (modifications : List Modification) : List Update :=
  modifications.foldl (fun acc mod =>
    match alistGet idfObjects mod.object_type with
    | none => acc
    | some objs => objs.foldl (fun a obj => a ++ updatesForObj mod obj) acc)
    []

/-- Model of `execute_modification(modifications, output_path, coefficients)`:
build `target_updates`, run the text replacement on the raw document, and
return the written lines together with the returned `len(target_updates)`.
(The `coefficients` argument of the source is unused by its body and is
omitted.) -/
def execute_modification (idfObjects : List (List Char × List IdfObject))
    (modifications : List Modification) (lines : List (List Char)) :
    List (List Char) × Nat :=
  let target_updates := buildTargetUpdates idfObjects modifications
  (save_with_text_replacement target_updates lines, target_updates.length)

/-- A Python field value as `_get_active_fields` inspects it: `None`, a
string, or a number (only `is None` and `isinstance(val, str)` matter). -/
inductive PyVal where
  | vnone : PyVal
  | vstr : List Char → PyVal
  | vnum : Int → PyVal

/-- Blankness test of the `last_idx` loop: `None`, or a string that strips
to empty; the numeral `0` is not blank. -/
def isBlankVal : PyVal → Bool
  | .vnone => true
  | .vstr s => (pyStrip s).isEmpty
  | .vnum _ => false

/-- Index of the last non-blank entry of `obj.fieldvalues`, `-1` if none. -/
def lastNonBlank (vals : List PyVal) : Int :=
  (vals.foldl (fun (p : Int × Int) v => (if isBlankVal v then p.1 else p.2, p.2 + 1)) (-1, 0)).1

/-- The `for idx, f in enumerate(obj.fieldnames):` loop: skip `"key"`
(without consuming the break), stop at the first index past `last_idx`. -/
def activeFieldsLoop (lastIdx : Int) : Nat → List (List Char) → List (List Char)
  | _, [] => []
  | idx, f :: rest =>
    if pyLower f = "key".data then activeFieldsLoop lastIdx (idx + 1) rest
    else if (idx : Int) > lastIdx then []
    else f :: activeFieldsLoop lastIdx (idx + 1) rest

/-- Model of `_get_active_fields(obj)` over the object's field names and
field values. -/
def get_active_fields (fieldnames : List (List Char)) (fieldvalues : List PyVal) :
    List (List Char) :=
  let lastIdx := lastNonBlank fieldvalues
  if lastIdx < 0 then [] else activeFieldsLoop lastIdx 0 fieldnames

/-- A UTF-8 continuation byte. -/
def contOk (b : Nat) : Bool := 0x80 ≤ b && b < 0xC0

/-- Strict UTF-8 decoder (as Python `bytes.decode('utf-8')`): rejects stray
continuation bytes, overlong forms, surrogates and code points past
`U+10FFFF`.  The fuel argument bounds the recursion by the byte count. -/
def utf8DecodeAux : Nat → List Nat → Option (List Char)
  | _, [] => some []
  | 0, _ :: _ => none
  | fuel + 1, b :: bs =>
    if b < 0x80 then (utf8DecodeAux fuel bs).map (fun r => Char.ofNat b :: r)
    else if b < 0xC2 then none
    else if b < 0xE0 then
      match bs with
      | b2 :: bs2 =>
        if contOk b2 then
          (utf8DecodeAux fuel bs2).map
            (fun r => Char.ofNat ((b - 0xC0) * 64 + (b2 - 0x80)) :: r)
        else none
      | [] => none
    else if b < 0xF0 then
      match bs with
      | b2 :: b3 :: bs3 =>
        if contOk b2 && contOk b3 then
          if (b - 0xE0) * 4096 + (b2 - 0x80) * 64 + (b3 - 0x80) < 0x800 ||
              (0xD800 ≤ (b - 0xE0) * 4096 + (b2 - 0x80) * 64 + (b3 - 0x80) &&
                (b - 0xE0) * 4096 + (b2 - 0x80) * 64 + (b3 - 0x80) ≤ 0xDFFF) then none
          else
            (utf8DecodeAux fuel bs3).map
              (fun r => Char.ofNat ((b - 0xE0) * 4096 + (b2 - 0x80) * 64 + (b3 - 0x80)) :: r)
        else none
      | _ => none
    else if b < 0xF5 then
      match bs with
      | b2 :: b3 :: b4 :: bs4 =>
        if contOk b2 && contOk b3 && contOk b4 then
          if (b - 0xF0) * 262144 + (b2 - 0x80) * 4096 + (b3 - 0x80) * 64 + (b4 - 0x80) < 0x10000 ||
              0x10FFFF < (b - 0xF0) * 262144 + (b2 - 0x80) * 4096 + (b3 - 0x80) * 64 + (b4 - 0x80) then
            none
          else
            (utf8DecodeAux fuel bs4).map
              (fun r =>
                Char.ofNat
                  ((b - 0xF0) * 262144 + (b2 - 0x80) * 4096 + (b3 - 0x80) * 64 + (b4 - 0x80)) :: r)
        else none
      | _ => none
    else none

/-- UTF-8 decoding of a byte sequence. -/
def utf8Decode (bs : List Nat) : Option (List Char) := utf8DecodeAux bs.length bs

/-- Latin-1 decoding: every byte maps to the code point of the same value
(total — this decode never fails). -/
def latin1Decode (bs : List Nat) : List Char := bs.map Char.ofNat

/-- Latin-1 encoding of text whose code points fit in one byte. -/
def latin1Encode (s : List Char) : List Nat := s.map Char.toNat

/-- UTF-8 encoding of one character. -/
def utf8EncodeChar (c : Char) : List Nat :=
  let n := c.toNat
  if n < 0x80 then [n]
  else if n < 0x800 then [0xC0 + n / 64, 0x80 + n % 64]
  else if n < 0x10000 then [0xE0 + n / 4096, 0x80 + n / 64 % 64, 0x80 + n % 64]
  else [0xF0 + n / 262144, 0x80 + n / 4096 % 64, 0x80 + n / 64 % 64, 0x80 + n % 64]

/-- UTF-8 encoding of a string. -/
def utf8Encode (s : List Char) : List Nat := (s.map utf8EncodeChar).flatten

/-- Universal-newline translation applied by Python text-mode reading
(`open(path, 'r', ...)` with the default `newline=None`): every `"\r\n"`
pair and every lone `'\r'` in the decoded text becomes `'\n'`. -/
def universalNewlines : List Char → List Char
  | [] => []
  | [c] => if c = '\r' then ['\n'] else [c]
  | c :: c2 :: rest =>
    if c = '\r' then
      if c2 = '\n' then '\n' :: universalNewlines rest
      else '\n' :: universalNewlines (c2 :: rest)
    else c :: universalNewlines (c2 :: rest)

/-- The read step of `_save_with_text_replacement`: try UTF-8, fall back to
latin-1 on decode failure (the bare `except:`); text mode then applies
universal-newline translation to the decoded text in either branch. -/
def readText (bs : List Nat) : List Char :=
  universalNewlines
    (match utf8Decode bs with
     | some s => s
     | none => latin1Decode bs)

/-- The write step: `open(output_path, 'w', encoding='utf-8')` — the output
is always encoded as UTF-8.  (With the default `newline=None`, text-mode
writing maps `'\n'` to `os.linesep`, which is `'\n'` itself on the POSIX
systems this app targets, so the write-side translation is the identity.) -/
def writeBytes (s : List Char) : List Nat := utf8Encode s


/-!
Helper lemmas about the patcher's line walk.
-/

theorem substLine_id_of_not_fires (m : UMap) (st : PatchState) (line : List Char)
    (h : substFires m st line = false) : substLine m st line = line := by
  unfold substFires at h
  unfold substLine
  cases hg : (typeInMap m st && hasChar line '!') with
  | false => simp [hg]
  | true =>
    rw [hg] at h
    simp only [Bool.true_and, Bool.and_eq_false_iff] at h
    cases hf : findMatch (commentFieldKey line) (targetFieldsOf m st) with
    | none => simp [hg, hf]
    | some v =>
      rw [hf] at h
      simp only [Option.isSome_some, Bool.true_eq_false, false_or,
        Bool.or_eq_false_iff] at h
      obtain ⟨h1, h2⟩ := h
      simp only [hg, if_true, hf]
      unfold rewriteWith
      cases hm : matchNumLine (rstripRN (List.takeWhile (fun c => c != '!') line)) with
      | some r => rw [hm] at h1; simp at h1
      | none =>
        cases hb : breakAtChar ',' (List.takeWhile (fun c => c != '!') line) with
        | some p => rw [hb] at h2; simp at h2
        | none => simp [hm, hb]

theorem stepLine_id_of_not_subst (m : UMap) (st : PatchState) (line : List Char)
    (h : lineSubstituted m st line = false) : (stepLine m st line).2 = line := by
  unfold lineSubstituted at h
  unfold stepLine
  cases ho : (openState m st line).inObj with
  | false => simp [ho]
  | true =>
    rw [ho] at h
    simp only [Bool.true_and] at h
    simp only [ho, if_true]
    exact substLine_id_of_not_fires _ _ _ h

theorem lineSubstituted_false_of_no_bang (m : UMap) (st : PatchState) (line : List Char)
    (h : hasChar line '!' = false) : lineSubstituted m st line = false := by
  unfold lineSubstituted substFires
  simp [h]

theorem patchLines_length (m : UMap) :
    ∀ (ls : List (List Char)) (st : PatchState), (patchLines m st ls).length = ls.length
  | [], _ => rfl
  | l :: ls, st => by simp [patchLines, patchLines_length m ls]

theorem patchLines_getD_eq (m : UMap) :
    ∀ (ls : List (List Char)) (st : PatchState) (i : Nat),
      lineSubstituted m (stateBefore m st ls i) (ls.getD i []) = false →
      (patchLines m st ls).getD i [] = ls.getD i []
  | [], _, _, _ => by simp [patchLines]
  | l :: ls, st, 0, h => by
    simp only [patchLines, List.getD_cons_zero]
    exact stepLine_id_of_not_subst m st l (by simpa [stateBefore] using h)
  | l :: ls, st, i + 1, h => by
    simp only [patchLines, List.getD_cons_succ]
    exact patchLines_getD_eq m ls (stepLine m st l).1 i (by simpa [stateBefore] using h)

theorem substLine_nil (st : PatchState) (line : List Char) : substLine [] st line = line := by
  unfold substLine typeInMap umapHasKey
  cases st.currentType <;> simp [alistGet]

theorem stepLine_nil_snd (st : PatchState) (line : List Char) :
    (stepLine [] st line).2 = line := by
  unfold stepLine
  cases h : (openState [] st line).inObj <;> simp [h, substLine_nil]

theorem patchLines_nil_map : ∀ (st : PatchState) (ls : List (List Char)),
    patchLines [] st ls = ls
  | _, [] => rfl
  | st, l :: ls => by
    simp [patchLines, stepLine_nil_snd, patchLines_nil_map _ ls]

theorem foldl_append_eq {α β : Type} (g : α → List β) :
    ∀ (l : List α) (acc : List β),
      l.foldl (fun a x => a ++ g x) acc = acc ++ (l.map g).flatten
  | [], acc => by simp
  | x :: l, acc => by
    simp only [List.foldl_cons, List.map_cons, List.flatten_cons]
    rw [foldl_append_eq g l (acc ++ g x), List.append_assoc]

theorem char_toNat_ofNat {n : Nat} (h : n.isValidChar) : (Char.ofNat n).toNat = n := by
  rw [Char.ofNat, dif_pos h]
  rfl

theorem utf8Encode_cons (c : Char) (r : List Char) :
    utf8Encode (c :: r) = utf8EncodeChar c ++ utf8Encode r := by
  simp [utf8Encode]

theorem utf8DecodeAux_encode :
    ∀ (fuel : Nat) (bs : List Nat) (s : List Char),
      utf8DecodeAux fuel bs = some s → utf8Encode s = bs := by
  intro fuel
  induction fuel with
  | zero =>
    intro bs s h
    cases bs with
    | nil =>
      simp only [utf8DecodeAux, Option.some.injEq] at h
      subst h; rfl
    | cons b bs => simp [utf8DecodeAux] at h
  | succ fuel ih =>
    intro bs s h
    cases bs with
    | nil =>
      simp only [utf8DecodeAux, Option.some.injEq] at h
      subst h; rfl
    | cons b bs =>
      simp only [utf8DecodeAux] at h
      by_cases h1 : b < 0x80
      · rw [if_pos h1, Option.map_eq_some'] at h
        obtain ⟨r, hr, rfl⟩ := h
        rw [utf8Encode_cons, ih bs r hr]
        have hv : Nat.isValidChar b := Or.inl (by omega)
        simp only [utf8EncodeChar, char_toNat_ofNat hv, if_pos h1]
        rfl
      · rw [if_neg h1] at h
        by_cases h2 : b < 0xC2
        · rw [if_pos h2] at h; exact absurd h (by simp)
        · rw [if_neg h2] at h
          by_cases h3 : b < 0xE0
          · rw [if_pos h3] at h
            split at h
            next b2 bs2 =>
              by_cases hc : contOk b2 = true
              · have hb2 : 0x80 ≤ b2 ∧ b2 < 0xC0 := by simpa [contOk] using hc
                rw [if_pos hc, Option.map_eq_some'] at h
                obtain ⟨r, hr, rfl⟩ := h
                rw [utf8Encode_cons, ih bs2 r hr]
                have hv : Nat.isValidChar ((b - 0xC0) * 64 + (b2 - 0x80)) :=
                  Or.inl (by omega)
                simp only [utf8EncodeChar, char_toNat_ofNat hv]
                rw [if_neg (by omega), if_pos (by omega)]
                have e1 : 0xC0 + ((b - 0xC0) * 64 + (b2 - 0x80)) / 64 = b := by omega
                have e2 : 0x80 + ((b - 0xC0) * 64 + (b2 - 0x80)) % 64 = b2 := by omega
                rw [e1, e2]
                rfl
              · rw [if_neg hc] at h; exact absurd h (by simp)
            next => exact absurd h (by simp)
          · rw [if_neg h3] at h
            by_cases h4 : b < 0xF0
            · rw [if_pos h4] at h
              split at h
              next b2 b3 bs3 =>
                by_cases hc : (contOk b2 && contOk b3) = true
                · have hb23 : (0x80 ≤ b2 ∧ b2 < 0xC0) ∧ (0x80 ≤ b3 ∧ b3 < 0xC0) := by
                    simpa [contOk] using hc
                  rw [if_pos hc] at h
                  by_cases hs :
                      ((b - 0xE0) * 4096 + (b2 - 0x80) * 64 + (b3 - 0x80) < 0x800 ||
                        (0xD800 ≤ (b - 0xE0) * 4096 + (b2 - 0x80) * 64 + (b3 - 0x80) &&
                          (b - 0xE0) * 4096 + (b2 - 0x80) * 64 + (b3 - 0x80) ≤ 0xDFFF)) = true
                  · rw [if_pos hs] at h; exact absurd h (by simp)
                  · have hs2 : ¬((b - 0xE0) * 4096 + (b2 - 0x80) * 64 + (b3 - 0x80) < 0x800) ∧
                        ¬(0xD800 ≤ (b - 0xE0) * 4096 + (b2 - 0x80) * 64 + (b3 - 0x80) ∧
                          (b - 0xE0) * 4096 + (b2 - 0x80) * 64 + (b3 - 0x80) ≤ 0xDFFF) := by
                      simpa [not_or, Decidable.not_and_iff_or_not, not_and, -Bool.decide_and]
                        using hs
                    rw [if_neg hs, Option.map_eq_some'] at h
                    obtain ⟨r, hr, rfl⟩ := h
                    rw [utf8Encode_cons, ih bs3 r hr]
                    have hv :
                        Nat.isValidChar ((b - 0xE0) * 4096 + (b2 - 0x80) * 64 + (b3 - 0x80)) := by
                      unfold Nat.isValidChar
                      omega
                    simp only [utf8EncodeChar, char_toNat_ofNat hv]
                    rw [if_neg (by omega), if_neg (by omega), if_pos (by omega)]
                    have e1 :
                        0xE0 + ((b - 0xE0) * 4096 + (b2 - 0x80) * 64 + (b3 - 0x80)) / 4096 = b := by
                      omega
                    have e2 :
                        0x80 + ((b - 0xE0) * 4096 + (b2 - 0x80) * 64 + (b3 - 0x80)) / 64 % 64 = b2 := by
                      omega
                    have e3 :
                        0x80 + ((b - 0xE0) * 4096 + (b2 - 0x80) * 64 + (b3 - 0x80)) % 64 = b3 := by
                      omega
                    rw [e1, e2, e3]
                    rfl
                · rw [if_neg hc] at h; exact absurd h (by simp)
              all_goals exact absurd h (by simp)
            · rw [if_neg h4] at h
              by_cases h5 : b < 0xF5
              · rw [if_pos h5] at h
                split at h
                next b2 b3 b4 bs4 =>
                  by_cases hc : (contOk b2 && contOk b3 && contOk b4) = true
                  · have hb234 : ((0x80 ≤ b2 ∧ b2 < 0xC0) ∧ (0x80 ≤ b3 ∧ b3 < 0xC0)) ∧
                        (0x80 ≤ b4 ∧ b4 < 0xC0) := by
                      simpa [contOk] using hc
                    rw [if_pos hc] at h
                    by_cases hs :
                        ((b - 0xF0) * 262144 + (b2 - 0x80) * 4096 + (b3 - 0x80) * 64 + (b4 - 0x80) < 0x10000 ||
                          0x10FFFF < (b - 0xF0) * 262144 + (b2 - 0x80) * 4096 + (b3 - 0x80) * 64 + (b4 - 0x80)) = true
                    · rw [if_pos hs] at h; exact absurd h (by simp)
                    · have hs2 :
                          ¬((b - 0xF0) * 262144 + (b2 - 0x80) * 4096 + (b3 - 0x80) * 64 + (b4 - 0x80) < 0x10000) ∧
                          ¬(0x10FFFF < (b - 0xF0) * 262144 + (b2 - 0x80) * 4096 + (b3 - 0x80) * 64 + (b4 - 0x80)) := by
                        simpa [not_or] using hs
                      rw [if_neg hs, Option.map_eq_some'] at h
                      obtain ⟨r, hr, rfl⟩ := h
                      rw [utf8Encode_cons, ih bs4 r hr]
                      have hv : Nat.isValidChar
                          ((b - 0xF0) * 262144 + (b2 - 0x80) * 4096 + (b3 - 0x80) * 64 + (b4 - 0x80)) := by
                        unfold Nat.isValidChar
                        omega
                      simp only [utf8EncodeChar, char_toNat_ofNat hv]
                      rw [if_neg (by omega), if_neg (by omega), if_neg (by omega)]
                      have e1 :
                          0xF0 + ((b - 0xF0) * 262144 + (b2 - 0x80) * 4096 + (b3 - 0x80) * 64 + (b4 - 0x80)) / 262144 = b := by
                        omega
                      have e2 :
                          0x80 + ((b - 0xF0) * 262144 + (b2 - 0x80) * 4096 + (b3 - 0x80) * 64 + (b4 - 0x80)) / 4096 % 64 = b2 := by
                        omega
                      have e3 :
                          0x80 + ((b - 0xF0) * 262144 + (b2 - 0x80) * 4096 + (b3 - 0x80) * 64 + (b4 - 0x80)) / 64 % 64 = b3 := by
                        omega
                      have e4 :
                          0x80 + ((b - 0xF0) * 262144 + (b2 - 0x80) * 4096 + (b3 - 0x80) * 64 + (b4 - 0x80)) % 64 = b4 := by
                        omega
                      rw [e1, e2, e3, e4]
                      rfl
                  · rw [if_neg hc] at h; exact absurd h (by simp)
                all_goals exact absurd h (by simp)
              · rw [if_neg h5] at h; exact absurd h (by simp)

theorem latin1_roundtrip : ∀ (bs : List Nat), (∀ b ∈ bs, b < 256) →
    latin1Encode (latin1Decode bs) = bs
  | [], _ => rfl
  | b :: bs, h => by
    have hb : b < 256 := h b (List.mem_cons_self b bs)
    have hv : Nat.isValidChar b := Or.inl (by omega)
    simp only [latin1Decode, latin1Encode, List.map_cons, List.map_map, List.cons.injEq]
    constructor
    · exact char_toNat_ofNat hv
    · have := latin1_roundtrip bs (fun x hx => h x (List.mem_cons_of_mem b hx))
      simpa [latin1Encode, latin1Decode] using this

theorem universalNewlines_id : ∀ (s : List Char), hasChar s '\r' = false →
    universalNewlines s = s
  | [], _ => rfl
  | [c], h => by
    have hc : ¬(c = '\r') := by simpa [hasChar] using h
    simp only [universalNewlines, if_neg hc]
  | c :: c2 :: rest, h => by
    have hh : ¬(c = '\r') ∧ hasChar (c2 :: rest) '\r' = false := by
      simpa [hasChar, List.any_cons, not_or] using h
    simp only [universalNewlines, if_neg hh.1,
      universalNewlines_id (c2 :: rest) hh.2]

/-!
Claim theorems.
-/

/-- C3: running the patcher with an empty Update Set produces an output
document identical to the input document. -/
theorem C3_empty_update_set_identity (lines : List (List Char)) :
    save_with_text_replacement [] lines = lines := by
  unfold save_with_text_replacement
  have hm : buildUpdatesMap [] = ([] : UMap) := rfl
  rw [hm]
  exact patchLines_nil_map initState lines

/-- C2: the output has as many lines as the input, and every output line
that is not the target of a performed substitution is byte-identical to the
corresponding input line (lines carry their original terminators). -/
theorem C2_untouched_lines_preserved (target_updates : List Update)
    (lines : List (List Char)) :
    (save_with_text_replacement target_updates lines).length = lines.length ∧
    ∀ i : Nat, substitutedAt target_updates lines i = false →
      (save_with_text_replacement target_updates lines).getD i [] = lines.getD i [] := by
  constructor
  · exact patchLines_length _ lines initState
  · intro i h
    exact patchLines_getD_eq _ lines initState i h

/-- Witness for C2 at a concrete input. -/
theorem C2_witness :
    substitutedAt [⟨"ZONE".data, "Z1".data, "Floor Area".data, "9.0".data⟩]
      ["hello world\n".data] 0 = false ∧
    (save_with_text_replacement [⟨"ZONE".data, "Z1".data, "Floor Area".data, "9.0".data⟩]
      ["hello world\n".data]).getD 0 [] = (["hello world\n".data]).getD 0 [] :=
  ⟨by decide, (C2_untouched_lines_preserved _ _).2 0 (by decide)⟩

/-- C10: an input line that contains no exclamation mark is copied to the
output unchanged, whatever block the walk is in — substitution can only
happen on a line carrying a comment. -/
theorem C10_no_comment_no_change (target_updates : List Update)
    (lines : List (List Char)) (i : Nat)
    (h : hasChar (lines.getD i []) '!' = false) :
    (save_with_text_replacement target_updates lines).getD i [] = lines.getD i [] := by
  unfold save_with_text_replacement
  exact patchLines_getD_eq _ lines initState i (lineSubstituted_false_of_no_bang _ _ _ h)

/-- Witness for C10: a comment-free line inside an open target block with a
pending update for the current instance still passes through unchanged. -/
theorem C10_witness :
    hasChar ((["ZONE,\n".data, "  Z1,  !- Name\n".data, "  2.5, 3.5\n".data]).getD 2 []) '!'
      = false ∧
    (save_with_text_replacement [⟨"ZONE".data, "Z1".data, "Some Field".data, "9.0".data⟩]
      ["ZONE,\n".data, "  Z1,  !- Name\n".data, "  2.5, 3.5\n".data]).getD 2 []
      = (["ZONE,\n".data, "  Z1,  !- Name\n".data, "  2.5, 3.5\n".data]).getD 2 [] :=
  ⟨by decide, C10_no_comment_no_change _ _ 2 (by decide)⟩

/-- C1 counterexample: a single Update Request whose field label never
matches any line still makes the returned count 1 while the output document
is byte-identical to the input (zero substitutions performed), refuting
"returns the number of substitutions actually performed". -/
theorem C1_counterexample :
    (execute_modification
        [("LIGHTS".data,
          [⟨["Name".data, "Lighting Level".data],
            [("Name".data, "L1".data), ("Lighting Level".data, "100.0".data)]⟩])]
        [⟨"LIGHTS".data, ["Lighting Level".data], fun _ => "80.0".data⟩]
        ["no matching line here\n".data]).2 = 1 ∧
    (execute_modification
        [("LIGHTS".data,
          [⟨["Name".data, "Lighting Level".data],
            [("Name".data, "L1".data), ("Lighting Level".data, "100.0".data)]⟩])]
        [⟨"LIGHTS".data, ["Lighting Level".data], fun _ => "80.0".data⟩]
        ["no matching line here\n".data]).1 = ["no matching line here\n".data] := by
  constructor
  · decide
  · decide

/-- C1 amended: `execute_modification` returns the number of Update Requests
it constructed, a value that does not depend on the document at all; an
Update Request whose field never matches any line still contributes 1. -/
theorem C1_count_is_request_count (idfObjects : List (List Char × List IdfObject))
    (mods : List Modification) (lines lines2 : List (List Char)) :
    (execute_modification idfObjects mods lines).2
      = (buildTargetUpdates idfObjects mods).length ∧
    (execute_modification idfObjects mods lines).2
      = (execute_modification idfObjects mods lines2).2 :=
  ⟨rfl, rfl⟩

/-- C4 counterexample: on the example line the numeric pattern does not match
(the non-comment portion starts with the token `ZONE`), so the comma
fallback replaces everything before the first comma with four spaces and the
new value: the output line is `    80.0, Z1, 100.0, !- Some Field`, not
`ZONE, Z1, 80.0, !- Some Field`. -/
theorem C4_counterexample :
    (execute_modification
        [("ZONE".data,
          [⟨["Name".data, "Some Field".data],
            [("Name".data, "Z1".data), ("Some Field".data, "100.0".data)]⟩])]
        [⟨"ZONE".data, ["Some Field".data], fun _ => "80.0".data⟩]
        ["ZONE,\n".data, "  Z1,  !- Name\n".data,
          "ZONE, Z1, 100.0, !- Some Field\n".data]).1.getD 2 []
      = "    80.0, Z1, 100.0, !- Some Field\n".data ∧
    (execute_modification
        [("ZONE".data,
          [⟨["Name".data, "Some Field".data],
            [("Name".data, "Z1".data), ("Some Field".data, "100.0".data)]⟩])]
        [⟨"ZONE".data, ["Some Field".data], fun _ => "80.0".data⟩]
        ["ZONE,\n".data, "  Z1,  !- Name\n".data,
          "ZONE, Z1, 100.0, !- Some Field\n".data]).1.getD 2 []
      ≠ "ZONE, Z1, 80.0, !- Some Field\n".data := by
  constructor
  · decide
  · decide

/-- C4 amended: when the non-comment portion fits the numeric pattern only
the numeral is replaced (whitespace, delimiter, tail and comment kept); when
it does not — as on the example line, whose non-comment portion begins with
the type token — the fallback replaces the text before the first comma with
four spaces plus the new value, and the run returns count 1 (the number of
constructed Update Requests). -/
theorem C4_fallback_rewrite :
    execute_modification
        [("ZONE".data,
          [⟨["Name".data, "Some Field".data],
            [("Name".data, "Z1".data), ("Some Field".data, "100.0".data)]⟩])]
        [⟨"ZONE".data, ["Some Field".data], fun _ => "80.0".data⟩]
        ["ZONE,\n".data, "  Z1,  !- Name\n".data,
          "ZONE, Z1, 100.0, !- Some Field\n".data]
      = (["ZONE,\n".data, "  Z1,  !- Name\n".data,
          "    80.0, Z1, 100.0, !- Some Field\n".data], 1) := by
  decide

/-- C5: label matching is insensitive to case and to internal
whitespace/underscore variation (labels with equal normalizations behave
identically in the matching test), and concretely the pending label
"Watts per Zone Floor Area" matches the comment
`!- Watts_per_Zone_Floor_Area` and the substitution is performed. -/
theorem C5_normalized_label_matching :
    (∀ f1 f2 key : List Char, normLabel f1 = normLabel f2 →
      labelMatchTest (pyUpper f1) key = labelMatchTest (pyUpper f2) key) ∧
    save_with_text_replacement
        [⟨"LIGHTS".data, "L1".data, "Watts per Zone Floor Area".data, "8.0".data⟩]
        ["LIGHTS,\n".data, "  L1,  !- Name\n".data,
          "  10.0;  !- Watts_per_Zone_Floor_Area\n".data]
      = ["LIGHTS,\n".data, "  L1,  !- Name\n".data,
          "  8.0;  !- Watts_per_Zone_Floor_Area\n".data] := by
  constructor
  · intro f1 f2 key h
    have e1 : removeChar '_' (removeChar ' ' (pyUpper f1)) = normLabel f1 := rfl
    have e2 : removeChar '_' (removeChar ' ' (pyUpper f2)) = normLabel f2 := rfl
    unfold labelMatchTest
    rw [e1, e2, h]
  · decide

/-- Witness for C5: two spelling variants of the same label drive the
matching test identically. -/
theorem C5_witness :
    normLabel "Watts per Floor Area".data = normLabel "watts_per_floor_area".data ∧
    labelMatchTest (pyUpper "Watts per Floor Area".data) "WATTS_PER_FLOOR_AREA".data
      = labelMatchTest (pyUpper "watts_per_floor_area".data) "WATTS_PER_FLOOR_AREA".data :=
  ⟨by decide, C5_normalized_label_matching.1 _ _ _ (by decide)⟩

/-- C6 counterexample: the line `  X7,     !- Nameplate Tag` has comment
token `Nameplate Tag`, not `Name`, yet walking the document leaves the
captured current name equal to `X7` (the capture fires on the literal
substring `"!- Name"` anywhere in the line), and the pending update keyed by
instance name `X7` is then applied to the following field line. -/
theorem C6_counterexample :
    (stateBefore
        (buildUpdatesMap [⟨"EQUIP".data, "X7".data, "Capacity".data, "9.0".data⟩])
        initState
        ["EQUIP,\n".data, "  E1,     !- Name\n".data, "  X7,     !- Nameplate Tag\n".data,
          "  3.0;    !- Capacity\n".data] 3).currentName = some "X7".data ∧
    pyStrip ((pySplitC '!' "  X7,     !- Nameplate Tag\n".data).getD 1 []) ≠ "- Name".data ∧
    save_with_text_replacement [⟨"EQUIP".data, "X7".data, "Capacity".data, "9.0".data⟩]
        ["EQUIP,\n".data, "  E1,     !- Name\n".data, "  X7,     !- Nameplate Tag\n".data,
          "  3.0;    !- Capacity\n".data]
      = ["EQUIP,\n".data, "  E1,     !- Name\n".data, "  X7,     !- Nameplate Tag\n".data,
          "  9.0;    !- Capacity\n".data] := by
  refine ⟨by decide, by decide, by decide⟩

/-- C6 amended: while the walk is inside a block, `currentName` is captured
exactly when the line contains the literal substring `"!- Name"` anywhere
(so comments such as `!- Nameplate Tag` also capture, and spacing variants
such as `! - Name` do not); the captured value is the pre-comment text with
all commas and semicolons removed, stripped and upper-cased. -/
theorem C6_name_capture (m : UMap) (st : PatchState) (line : List Char)
    (h : (openState m st line).inObj = true) :
    (stepLine m st line).1.currentName =
      (if pyContainsSub nameMark line then some (nameValue line)
       else (openState m st line).currentName) := by
  simp only [stepLine]
  rw [if_pos h]
  cases hn : pyContainsSub nameMark line with
  | true => simp [closeNameState, hn]
  | false =>
    simp only [closeNameState, hn, Bool.false_eq_true, if_false]
    split
    · rfl
    · rfl

/-- Witness for C6: a data line with an unrelated comment leaves the current
name untouched. -/
theorem C6_witness :
    ((openState [] ⟨some "T".data, some "E1".data, true⟩ "  5,  !- Other\n".data).inObj
      = true) ∧
    (stepLine [] ⟨some "T".data, some "E1".data, true⟩ "  5,  !- Other\n".data).1.currentName =
      (if pyContainsSub nameMark "  5,  !- Other\n".data
       then some (nameValue "  5,  !- Other\n".data)
       else (openState [] ⟨some "T".data, some "E1".data, true⟩
              "  5,  !- Other\n".data).currentName) :=
  ⟨by decide, C6_name_capture _ _ _ (by decide)⟩

/-- C7 counterexample: a field whose current value is the empty string — a
string `float()` cannot parse — still produces an Update Request (the code
maps `''` to `0.0`), so it does contribute to the returned count. -/
theorem C7_counterexample :
    (buildTargetUpdates
        [("LIGHTS".data,
          [⟨["Name".data, "Level".data],
            [("Name".data, "L1".data), ("Level".data, "".data)]⟩])]
        [⟨"LIGHTS".data, ["Level".data], fun _ => "0.0".data⟩]).length = 1 ∧
    pyFloatParses "".data = false := by
  constructor
  · decide
  · decide

/-- C7 amended: a field whose current value is non-empty and not parseable
as a number produces no Update Request (so it is not counted and its text is
never targeted), and the per-field processing is independent — one failing
field never aborts the others; an empty-string value, by contrast, is
treated as `0.0` and does produce a request. -/
theorem C7_nonnumeric_skip (objType objName : List Char) (obj : IdfObject)
    (coef : List Char → List Char) (field attr : List Char)
    (hres : findTargetAttr obj.fieldnames (normAttr (pyStrip field)) = some attr)
    (hne : pyGetattr obj attr "0".data ≠ [])
    (hnp : pyFloatParses (pyGetattr obj attr "0".data) = false) :
    updatesForField objType objName obj coef field = [] ∧
    ∀ mod : Modification,
      updatesForObj mod obj =
        (mod.fields.map
          (updatesForField mod.object_type (pyGetattr obj "Name".data "N/A".data)
            obj mod.coef)).flatten := by
  constructor
  · simp only [updatesForField, hres]
    split
    · next hE => exact absurd (List.isEmpty_iff.mp hE) hne
    · split
      · next hP =>
        have hq : pyFloatParses (pyGetattr obj attr ['0']) = false := hnp
        simp [hq] at hP
      · rfl
  · intro mod
    unfold updatesForObj
    simpa using foldl_append_eq
      (updatesForField mod.object_type (pyGetattr obj "Name".data "N/A".data) obj mod.coef)
      mod.fields []

/-- Witness for C7: the non-numeric value `abc` yields no Update Request. -/
theorem C7_witness :
    updatesForField "LIGHTS".data "L1".data
      ⟨["Name".data, "Level".data], [("Name".data, "L1".data), ("Level".data, "abc".data)]⟩
      (fun v => v) "Level".data = [] :=
  (C7_nonnumeric_skip "LIGHTS".data "L1".data
    ⟨["Name".data, "Level".data], [("Name".data, "L1".data), ("Level".data, "abc".data)]⟩
    (fun v => v) "Level".data "Level".data (by decide) (by decide) (by decide)).1

/-- C8 counterexample: two failures of "written using the same text encoding
that was used for reading".  First, the byte `0xE9` is not valid UTF-8, so
reading falls back to latin-1, yet the output is written as UTF-8 and yields
`[195, 169]`, not the latin-1 byte `[233]`.  Second, even when the UTF-8
read succeeds the bytes are not reproduced: text-mode reading translates the
`"\r\n"` in `[97, 13, 10, 98]` to `'\n'`, and the write produces
`[97, 10, 98]`. -/
theorem C8_counterexample :
    utf8Decode [233] = none ∧
    readText [233] = latin1Decode [233] ∧
    writeBytes (readText [233]) = [195, 169] ∧
    latin1Encode (readText [233]) = [233] ∧
    ([195, 169] : List Nat) ≠ [233] ∧
    utf8Decode [97, 13, 10, 98] = some ['a', '\r', '\n', 'b'] ∧
    readText [97, 13, 10, 98] = ['a', '\n', 'b'] ∧
    writeBytes (readText [97, 13, 10, 98]) = [97, 10, 98] ∧
    ([97, 10, 98] : List Nat) ≠ [97, 13, 10, 98] := by
  refine ⟨by decide, by decide, by decide, by decide, by decide, by decide, by decide,
    by decide, by decide⟩

/-- C8 amended: reading tries UTF-8 first and falls back to latin-1, which
decodes every byte sequence (and round-trips on bytes), so reading never
fails for encoding reasons; text mode additionally applies universal-newline
translation to the decoded text; the output is always written as UTF-8 —
after a latin-1 fallback the bytes are re-encoded rather than written back
in the read encoding, and the source bytes are reproduced exactly only when
the UTF-8 read succeeded and the source contained no carriage returns. -/
theorem C8_encoding_behaviour :
    (∀ bs : List Nat, (∀ b ∈ bs, b < 256) → latin1Encode (latin1Decode bs) = bs) ∧
    (∀ (bs : List Nat) (s : List Char), utf8Decode bs = some s →
      hasChar s '\r' = false → writeBytes (readText bs) = bs) ∧
    (∀ bs : List Nat, utf8Decode bs = none →
      readText bs = universalNewlines (latin1Decode bs)) := by
  refine ⟨latin1_roundtrip, ?_, ?_⟩
  · intro bs s h hc
    simp only [readText, h]
    rw [universalNewlines_id s hc]
    exact utf8DecodeAux_encode bs.length bs s h
  · intro bs h
    simp only [readText, h]

/-- Witness for C8 at concrete byte sequences. -/
theorem C8_witness :
    latin1Encode (latin1Decode [233]) = [233] ∧
    writeBytes (readText [49]) = [49] ∧
    readText [233] = universalNewlines (latin1Decode [233]) :=
  ⟨C8_encoding_behaviour.1 [233] (by decide),
   C8_encoding_behaviour.2.1 [49] ['1'] (by decide) (by decide),
   C8_encoding_behaviour.2.2 [233] (by decide)⟩

/-- C9 counterexample: for field values `["A", "", 5, "", ""]` (key already
excluded) the code returns `["field0", "field1", "field2"]` — the internal
blank `field1` is kept — not `["field0", "field2"]` as the claim states. -/
theorem C9_counterexample :
    get_active_fields
        ["field0".data, "field1".data, "field2".data, "field3".data, "field4".data]
        [.vstr "A".data, .vstr "".data, .vnum 5, .vstr "".data, .vstr "".data]
      = ["field0".data, "field1".data, "field2".data] ∧
    get_active_fields
        ["field0".data, "field1".data, "field2".data, "field3".data, "field4".data]
        [.vstr "A".data, .vstr "".data, .vnum 5, .vstr "".data, .vstr "".data]
      ≠ ["field0".data, "field2".data] := by
  constructor
  · decide
  · decide

/-- C9 amended: the Active Field List is every declared label up to and
including the last one with a non-blank value — internal blanks are
retained, trailing blanks are dropped, a literal `0` counts as present, and
the synthetic key label is excluded. -/
theorem C9_active_fields :
    get_active_fields
        ["field0".data, "field1".data, "field2".data, "field3".data, "field4".data]
        [.vstr "A".data, .vstr "".data, .vnum 5, .vstr "".data, .vstr "".data]
      = ["field0".data, "field1".data, "field2".data] ∧
    get_active_fields ["f0".data, "f1".data] [.vnum 0, .vstr "".data] = ["f0".data] ∧
    get_active_fields ["key".data, "f0".data] [.vstr "ZONE".data, .vstr "A".data]
      = ["f0".data] := by
  refine ⟨by decide, by decide, by decide⟩
